import Mathlib

/-!
Shallow embedding of the BitFlow payment-tag registry contract
(src/contracts/bitflow.clar) and verification of its specification claims.

Principals are modelled as naturals, block heights and token amounts as
naturals, Clarity maps as functions into `Option`, and each public function
as a pure function from a caller/height context and a contract state to a
result together with the successor state.  A public function that returns
an error leaves the state unchanged, mirroring Clarity's rollback of all
writes of a failing public call (in this contract every write happens after
every assertion, so the sequential embedding is exact).  The external sBTC
transfer invoked by `fulfill-payment-tag` is a parameter of the embedding;
the fulfil operation additionally records the list of transfer invocations
it performed so that "invoked exactly once with these arguments" is a
statement about the embedding.
-/

namespace Bitflow

abbrev Principal := Nat

/-- Error codes of the contract (`define-constant ERR-...`). -/
def ERR_NOT_PENDING : Nat := 101
def ERR_NOT_FOUND : Nat := 103
def ERR_UNAUTHORIZED : Nat := 104
def ERR_EXPIRED : Nat := 105
def ERR_INVALID_AMOUNT : Nat := 106
def ERR_EMPTY_MEMO : Nat := 107
def ERR_MAX_EXPIRATION_EXCEEDED : Nat := 108
def ERR_SELF_PAYMENT : Nat := 110

/-- Lifecycle state constants (`define-constant STATE-...`). -/
def STATE_PENDING : String := "pending"
def STATE_PAID : String := "paid"
def STATE_EXPIRED : String := "expired"
def STATE_CANCELED : String := "canceled"

/-- Protocol limits. -/
def MAX_EXPIRATION_BLOCKS : Nat := 4320
def MAX_TAGS_PER_USER : Nat := 100
def MIN_PAYMENT_AMOUNT : Nat := 1000

/-- A payment-tag record (the value type of the `payment-tags` map). -/
structure Tag where
  creator : Principal
  recipient : Principal
  amount : Nat
  createdAt : Nat
  expiresAt : Nat
  memo : Option String
  state : String
  paymentTx : Option Nat
  paymentBlock : Option Nat
deriving DecidableEq

/-- An entry of `creator-index` / `recipient-index`. -/
structure IndexEntry where
  tagIds : List Nat
  count : Nat
deriving DecidableEq

instance {ε α : Type} [DecidableEq ε] [DecidableEq α] :
    DecidableEq (Except ε α) := fun a b =>
  match a, b with
  | .ok x, .ok y => decidable_of_iff (x = y) (by simp)
  | .ok _, .error _ => isFalse (by simp)
  | .error _, .ok _ => isFalse (by simp)
  | .error e, .error f => decidable_of_iff (e = f) (by simp)

/-- The persistent contract state: the four maps and the two data vars. -/
structure ContractState where
  paymentTags : Nat → Option Tag
  creatorIndex : Principal → Option IndexEntry
  recipientIndex : Principal → Option IndexEntry
  contractStats : String → Option Nat
  tagCounter : Nat
  contractPaused : Bool

/-- The implicit execution context: `tx-sender` and `stacks-block-height`. -/
structure Ctx where
  txSender : Principal
  height : Nat

/-- The deployment-time state: empty maps, counter 0, unpaused. -/
def initState : ContractState :=
  { paymentTags := fun _ => none
    creatorIndex := fun _ => none
    recipientIndex := fun _ => none
    contractStats := fun _ => none
    tagCounter := 0
    contractPaused := false }

/-- Clarity `as-max-len?` specialised to lists of uints. -/
def asMaxLen (l : List Nat) (n : Nat) : Option (List Nat) :=
  if l.length ≤ n then some l else none

/-- `add-to-creator-index`: append `tagId` to the creator's entry if the
capacity bound 100 allows it, returning whether the append happened. -/
def addToCreatorIndex (creator : Principal) (tagId : Nat) (s : ContractState) :
    Bool × ContractState :=
  let currentData := (s.creatorIndex creator).getD { tagIds := [], count := 0 }
  match asMaxLen (currentData.tagIds ++ [tagId]) MAX_TAGS_PER_USER with
  | some newList =>
      (true,
        { s with creatorIndex := fun p =>
            if p = creator then
              some { tagIds := newList, count := currentData.count + 1 }
            else s.creatorIndex p })
  | none => (false, s)

/-- `add-to-recipient-index`: the same discipline on the recipient index. -/
def addToRecipientIndex (recipient : Principal) (tagId : Nat) (s : ContractState) :
    Bool × ContractState :=
  let currentData := (s.recipientIndex recipient).getD { tagIds := [], count := 0 }
  match asMaxLen (currentData.tagIds ++ [tagId]) MAX_TAGS_PER_USER with
  | some newList =>
      (true,
        { s with recipientIndex := fun p =>
            if p = recipient then
              some { tagIds := newList, count := currentData.count + 1 }
            else s.recipientIndex p })
  | none => (false, s)

/-- `is-tag-expired`: `(>= stacks-block-height expires-at)`. -/
def isTagExpired (height expiresAt : Nat) : Bool :=
  decide (expiresAt ≤ height)

/-- `increment-stat`. -/
def incrementStat (statKey : String) (s : ContractState) : ContractState :=
  let currentValue := (s.contractStats statKey).getD 0
  { s with contractStats := fun k =>
      if k = statKey then some (currentValue + 1) else s.contractStats k }

/-- The memo check of `create-payment-tag`: a present memo of length 0
fails with `ERR-EMPTY-MEMO`; an absent memo passes. -/
def memoEmpty (memo : Option String) : Bool :=
  match memo with
  | some m => decide (m.length = 0)
  | none => false

/-- `create-payment-tag`. -/
def createPaymentTag (ctx : Ctx) (s : ContractState) (recipient : Principal)
    (amount expiresInBlocks : Nat) (memo : Option String) :
    Except Nat Nat × ContractState :=
  let newTagId := s.tagCounter + 1
  let expirationBlock := ctx.height + expiresInBlocks
  if s.contractPaused = true then (.error ERR_UNAUTHORIZED, s)
  else if amount < MIN_PAYMENT_AMOUNT then (.error ERR_INVALID_AMOUNT, s)
  else if MAX_EXPIRATION_BLOCKS < expiresInBlocks then
    (.error ERR_MAX_EXPIRATION_EXCEEDED, s)
  else if expiresInBlocks = 0 then (.error ERR_INVALID_AMOUNT, s)
  else if ctx.txSender = recipient then (.error ERR_SELF_PAYMENT, s)
  else if memoEmpty memo = true then (.error ERR_EMPTY_MEMO, s)
  else
    let tag : Tag :=
      { creator := ctx.txSender
        recipient := recipient
        amount := amount
        createdAt := ctx.height
        expiresAt := expirationBlock
        memo := memo
        state := STATE_PENDING
        paymentTx := none
        paymentBlock := none }
    let s1 := { s with
      paymentTags := fun i => if i = newTagId then some tag else s.paymentTags i
      tagCounter := newTagId }
    let s2 := (addToCreatorIndex ctx.txSender newTagId s1).2
    let s3 := (addToRecipientIndex recipient newTagId s2).2
    let s4 := incrementStat "tags-created" s3
    (.ok newTagId, s4)

/-- A transfer primitive: amount, sender, recipient to success or an error
code (the sBTC contract is external to this repository). -/
abbrev Transfer := Nat → Principal → Principal → Except Nat Unit

/-- Outcome of `fulfill-payment-tag`: the response, the successor state and
the list of `(amount, sender, recipient)` transfer invocations performed. -/
structure FulfillOut where
  result : Except Nat Nat
  state : ContractState
  calls : List (Nat × Principal × Principal)

/-- `fulfill-payment-tag`. -/
def fulfillPaymentTag (transfer : Transfer) (ctx : Ctx) (s : ContractState)
    (tagId : Nat) : FulfillOut :=
  match s.paymentTags tagId with
  | none => { result := .error ERR_NOT_FOUND, state := s, calls := [] }
  | some tagData =>
    if s.contractPaused = true then
      { result := .error ERR_UNAUTHORIZED, state := s, calls := [] }
    else if 0 < tagId then
      if tagId ≤ s.tagCounter then
        if tagData.state = STATE_PENDING then
          if ctx.height < tagData.expiresAt then
            match transfer tagData.amount ctx.txSender tagData.recipient with
            | .error e =>
                { result := .error e, state := s,
                  calls := [(tagData.amount, ctx.txSender, tagData.recipient)] }
            | .ok _ =>
                let paidTag : Tag :=
                  { tagData with state := STATE_PAID, paymentBlock := some ctx.height }
                let s1 := { s with paymentTags := fun i =>
                  if i = tagId then some paidTag else s.paymentTags i }
                let s2 := incrementStat "tags-fulfilled" s1
                { result := .ok tagId, state := s2,
                  calls := [(tagData.amount, ctx.txSender, tagData.recipient)] }
          else { result := .error ERR_EXPIRED, state := s, calls := [] }
        else { result := .error ERR_NOT_PENDING, state := s, calls := [] }
      else { result := .error ERR_NOT_FOUND, state := s, calls := [] }
    else { result := .error ERR_INVALID_AMOUNT, state := s, calls := [] }

/-- `cancel-payment-tag`. -/
def cancelPaymentTag (ctx : Ctx) (s : ContractState) (tagId : Nat) :
    Except Nat Nat × ContractState :=
  match s.paymentTags tagId with
  | none => (.error ERR_NOT_FOUND, s)
  | some tagData =>
    if 0 < tagId then
      if tagId ≤ s.tagCounter then
        if ctx.txSender = tagData.creator then
          if tagData.state = STATE_PENDING then
            let s1 := { s with paymentTags := fun i =>
              if i = tagId then some { tagData with state := STATE_CANCELED }
              else s.paymentTags i }
            let s2 := incrementStat "tags-canceled" s1
            (.ok tagId, s2)
          else (.error ERR_NOT_PENDING, s)
        else (.error ERR_UNAUTHORIZED, s)
      else (.error ERR_NOT_FOUND, s)
    else (.error ERR_INVALID_AMOUNT, s)

/-- `expire-payment-tag`. -/
def expirePaymentTag (ctx : Ctx) (s : ContractState) (tagId : Nat) :
    Except Nat Nat × ContractState :=
  match s.paymentTags tagId with
  | none => (.error ERR_NOT_FOUND, s)
  | some tagData =>
    if 0 < tagId then
      if tagId ≤ s.tagCounter then
        if tagData.state = STATE_PENDING then
          if isTagExpired ctx.height tagData.expiresAt = true then
            let s1 := { s with paymentTags := fun i =>
              if i = tagId then some { tagData with state := STATE_EXPIRED }
              else s.paymentTags i }
            let s2 := incrementStat "tags-expired" s1
            (.ok tagId, s2)
          else (.error ERR_EXPIRED, s)
        else (.error ERR_NOT_PENDING, s)
      else (.error ERR_NOT_FOUND, s)
    else (.error ERR_INVALID_AMOUNT, s)

/-- `toggle-contract-pause` (deployer-only pause flip). -/
def toggleContractPause (deployer : Principal) (ctx : Ctx) (s : ContractState) :
    Except Nat Bool × ContractState :=
  if ctx.txSender = deployer then
    (.ok (!s.contractPaused), { s with contractPaused := !s.contractPaused })
  else (.error ERR_UNAUTHORIZED, s)

/-- `get-tag-counter`. -/
def getTagCounter (s : ContractState) : Nat :=
  s.tagCounter

/-- `get-payment-tag`. -/
def getPaymentTag (s : ContractState) (tagId : Nat) : Except Nat Tag :=
  match s.paymentTags tagId with
  | some tagData => .ok tagData
  | none => .error ERR_NOT_FOUND

/-- `get-creator-tags`. -/
def getCreatorTags (s : ContractState) (creator : Principal) :
    Except Nat (List Nat) :=
  match s.creatorIndex creator with
  | some indexData => .ok indexData.tagIds
  | none => .ok []

/-- `get-recipient-tags`. -/
def getRecipientTags (s : ContractState) (recipient : Principal) :
    Except Nat (List Nat) :=
  match s.recipientIndex recipient with
  | some indexData => .ok indexData.tagIds
  | none => .ok []

/-- `can-expire-tag`. -/
def canExpireTag (ctx : Ctx) (s : ContractState) (tagId : Nat) :
    Except Nat Bool :=
  match s.paymentTags tagId with
  | some tagData =>
      if tagData.state = STATE_PENDING ∧
          isTagExpired ctx.height tagData.expiresAt = true then
        .ok true
      else .ok false
  | none => .error ERR_NOT_FOUND

/-- `get-contract-stats`. -/
def getContractStats (s : ContractState) (statKey : String) : Except Nat Nat :=
  match s.contractStats statKey with
  | some statData => .ok statData
  | none => .ok 0

/-- `is-contract-paused`. -/
def isContractPaused (s : ContractState) : Bool :=
  s.contractPaused

/-- `get-multiple-tags` (via `get-tag-safe`). -/
def getMultipleTags (s : ContractState) (tagIds : List Nat) :
    Except Nat (List (Option Tag)) :=
  .ok (tagIds.map fun tagId => s.paymentTags tagId)

/-- One externally invokable operation, with its caller, height and (for
fulfil) the outcome of the external transfer. -/
inductive Op where
  | create (caller height recipient amount expiresInBlocks : Nat)
      (memo : Option String)
  | fulfill (caller height tagId : Nat) (transferResult : Except Nat Unit)
  | cancel (caller height tagId : Nat)
  | expire (caller height tagId : Nat)
  | toggle (caller : Nat)

/-- Successor state after one operation. -/
def step (deployer : Principal) (s : ContractState) (op : Op) : ContractState :=
  match op with
  | .create c h r a e m => (createPaymentTag ⟨c, h⟩ s r a e m).2
  | .fulfill c h id tr => (fulfillPaymentTag (fun _ _ _ => tr) ⟨c, h⟩ s id).state
  | .cancel c h id => (cancelPaymentTag ⟨c, h⟩ s id).2
  | .expire c h id => (expirePaymentTag ⟨c, h⟩ s id).2
  | .toggle c => (toggleContractPause deployer ⟨c, 0⟩ s).2

/-- Run a list of operations from a state. -/
def runFrom (deployer : Principal) (s : ContractState) (ops : List Op) :
    ContractState :=
  List.foldl (step deployer) s ops

/-- Run a list of operations from the deployment state: the reachable
states are exactly the values of `run`. -/
def run (deployer : Principal) (ops : List Op) : ContractState :=
  runFrom deployer initState ops

/-- The id returned by one operation when it is a successful create. -/
def stepCreated (s : ContractState) (op : Op) : List Nat :=
  match op with
  | .create c h r a e m =>
      match (createPaymentTag ⟨c, h⟩ s r a e m).1 with
      | .ok j => [j]
      | .error _ => []
  | _ => []

/-- The ids returned by the successful creates of an operation sequence,
in order. -/
def createdIdsFrom (deployer : Principal) (s : ContractState) :
    List Op → List Nat
  | [] => []
  | op :: rest =>
      stepCreated s op ++ createdIdsFrom deployer (step deployer s op) rest

/-- The tag-id list of a party's creator-index entry (empty if absent). -/
def creatorList (s : ContractState) (p : Principal) : List Nat :=
  ((s.creatorIndex p).getD { tagIds := [], count := 0 }).tagIds

/-- The tag-id list of a party's recipient-index entry (empty if absent). -/
def recipientList (s : ContractState) (p : Principal) : List Nat :=
  ((s.recipientIndex p).getD { tagIds := [], count := 0 }).tagIds

end Bitflow

namespace Bitflow

/-! ### Projection lemmas for the internal helpers -/

theorem addToCreatorIndex_tagCounter (c id : Nat) (s : ContractState) :
    ((addToCreatorIndex c id s).2).tagCounter = s.tagCounter := by
  simp only [addToCreatorIndex]
  split <;> rfl

theorem addToCreatorIndex_paymentTags (c id : Nat) (s : ContractState) :
    ((addToCreatorIndex c id s).2).paymentTags = s.paymentTags := by
  simp only [addToCreatorIndex]
  split <;> rfl

theorem addToCreatorIndex_recipientIndex (c id : Nat) (s : ContractState) :
    ((addToCreatorIndex c id s).2).recipientIndex = s.recipientIndex := by
  simp only [addToCreatorIndex]
  split <;> rfl

theorem addToCreatorIndex_contractStats (c id : Nat) (s : ContractState) :
    ((addToCreatorIndex c id s).2).contractStats = s.contractStats := by
  simp only [addToCreatorIndex]
  split <;> rfl

theorem addToCreatorIndex_contractPaused (c id : Nat) (s : ContractState) :
    ((addToCreatorIndex c id s).2).contractPaused = s.contractPaused := by
  simp only [addToCreatorIndex]
  split <;> rfl

theorem addToRecipientIndex_tagCounter (c id : Nat) (s : ContractState) :
    ((addToRecipientIndex c id s).2).tagCounter = s.tagCounter := by
  simp only [addToRecipientIndex]
  split <;> rfl

theorem addToRecipientIndex_paymentTags (c id : Nat) (s : ContractState) :
    ((addToRecipientIndex c id s).2).paymentTags = s.paymentTags := by
  simp only [addToRecipientIndex]
  split <;> rfl

theorem addToRecipientIndex_creatorIndex (c id : Nat) (s : ContractState) :
    ((addToRecipientIndex c id s).2).creatorIndex = s.creatorIndex := by
  simp only [addToRecipientIndex]
  split <;> rfl

theorem addToRecipientIndex_contractStats (c id : Nat) (s : ContractState) :
    ((addToRecipientIndex c id s).2).contractStats = s.contractStats := by
  simp only [addToRecipientIndex]
  split <;> rfl

theorem addToRecipientIndex_contractPaused (c id : Nat) (s : ContractState) :
    ((addToRecipientIndex c id s).2).contractPaused = s.contractPaused := by
  simp only [addToRecipientIndex]
  split <;> rfl

theorem incrementStat_tagCounter (k : String) (s : ContractState) :
    (incrementStat k s).tagCounter = s.tagCounter := rfl

theorem incrementStat_paymentTags (k : String) (s : ContractState) :
    (incrementStat k s).paymentTags = s.paymentTags := rfl

theorem incrementStat_creatorIndex (k : String) (s : ContractState) :
    (incrementStat k s).creatorIndex = s.creatorIndex := rfl

theorem incrementStat_recipientIndex (k : String) (s : ContractState) :
    (incrementStat k s).recipientIndex = s.recipientIndex := rfl

theorem incrementStat_contractPaused (k : String) (s : ContractState) :
    (incrementStat k s).contractPaused = s.contractPaused := rfl

/-! ### Index-append characterisation -/

theorem addToCreatorIndex_list_of_room (c id : Nat) (s : ContractState)
    (h : (creatorList s c).length < MAX_TAGS_PER_USER) (p : Principal) :
    creatorList ((addToCreatorIndex c id s).2) p =
      if p = c then creatorList s c ++ [id] else creatorList s p := by
  have hlen : (((s.creatorIndex c).getD { tagIds := [], count := 0 }).tagIds
      ++ [id]).length ≤ MAX_TAGS_PER_USER := by
    simp only [creatorList] at h
    simp [List.length_append]
    omega
  simp only [addToCreatorIndex, asMaxLen, if_pos hlen]
  by_cases hp : p = c <;> simp [creatorList, hp]

theorem addToCreatorIndex_full (c id : Nat) (s : ContractState)
    (h : ¬ (creatorList s c).length < MAX_TAGS_PER_USER) :
    (addToCreatorIndex c id s).2 = s := by
  have hlen : ¬ ((s.creatorIndex c).getD { tagIds := [], count := 0 }).tagIds.length
      + 1 ≤ MAX_TAGS_PER_USER := by
    simp only [creatorList] at h
    omega
  simp [addToCreatorIndex, asMaxLen, hlen]

theorem addToRecipientIndex_list_of_room (c id : Nat) (s : ContractState)
    (h : (recipientList s c).length < MAX_TAGS_PER_USER) (p : Principal) :
    recipientList ((addToRecipientIndex c id s).2) p =
      if p = c then recipientList s c ++ [id] else recipientList s p := by
  have hlen : (((s.recipientIndex c).getD { tagIds := [], count := 0 }).tagIds
      ++ [id]).length ≤ MAX_TAGS_PER_USER := by
    simp only [recipientList] at h
    simp [List.length_append]
    omega
  simp only [addToRecipientIndex, asMaxLen, if_pos hlen]
  by_cases hp : p = c <;> simp [recipientList, hp]

theorem addToRecipientIndex_full (c id : Nat) (s : ContractState)
    (h : ¬ (recipientList s c).length < MAX_TAGS_PER_USER) :
    (addToRecipientIndex c id s).2 = s := by
  have hlen : ¬ ((s.recipientIndex c).getD { tagIds := [], count := 0 }).tagIds.length
      + 1 ≤ MAX_TAGS_PER_USER := by
    simp only [recipientList] at h
    omega
  simp [addToRecipientIndex, asMaxLen, hlen]

theorem creatorList_incrementStat (k : String) (s : ContractState) (p : Principal) :
    creatorList (incrementStat k s) p = creatorList s p := rfl

theorem recipientList_incrementStat (k : String) (s : ContractState) (p : Principal) :
    recipientList (incrementStat k s) p = recipientList s p := rfl

theorem creatorList_addToRecipientIndex (r id : Nat) (s : ContractState) (p : Principal) :
    creatorList ((addToRecipientIndex r id s).2) p = creatorList s p := by
  simp only [creatorList, addToRecipientIndex_creatorIndex]

theorem recipientList_addToCreatorIndex (c id : Nat) (s : ContractState) (p : Principal) :
    recipientList ((addToCreatorIndex c id s).2) p = recipientList s p := by
  simp only [recipientList, addToCreatorIndex_recipientIndex]

/-! ### Case analyses of the public operations -/

/-- A create either fails leaving the state unchanged, or returns the id
`tag-counter + 1` and the state assembled from the registry write, the two
index appends and the statistics bump. -/
theorem createPaymentTag_cases (ctx : Ctx) (s : ContractState) (r a e : Nat)
    (m : Option String) :
    ((∃ err, (createPaymentTag ctx s r a e m).1 = .error err) ∧
      (createPaymentTag ctx s r a e m).2 = s) ∨
    ((createPaymentTag ctx s r a e m).1 = .ok (s.tagCounter + 1) ∧
      (createPaymentTag ctx s r a e m).2 =
        incrementStat "tags-created"
          (addToRecipientIndex r (s.tagCounter + 1)
            (addToCreatorIndex ctx.txSender (s.tagCounter + 1)
              { s with
                paymentTags := fun i =>
                  if i = s.tagCounter + 1 then
                    some { creator := ctx.txSender, recipient := r, amount := a,
                           createdAt := ctx.height, expiresAt := ctx.height + e,
                           memo := m, state := STATE_PENDING, paymentTx := none,
                           paymentBlock := none }
                  else s.paymentTags i
                tagCounter := s.tagCounter + 1 }).2).2) := by
  simp only [createPaymentTag]
  repeat' split
  all_goals first
    | exact Or.inl ⟨⟨_, rfl⟩, rfl⟩
    | exact Or.inr ⟨rfl, rfl⟩

/-- A fulfil either leaves the state unchanged, or sets the looked-up tag to
`paid` with the settlement height and bumps the statistics. -/
theorem fulfillPaymentTag_state_cases (transfer : Transfer) (ctx : Ctx)
    (s : ContractState) (tagId : Nat) :
    (fulfillPaymentTag transfer ctx s tagId).state = s ∨
    (∃ tag, s.paymentTags tagId = some tag ∧
      (fulfillPaymentTag transfer ctx s tagId).state =
        incrementStat "tags-fulfilled"
          { s with paymentTags := fun i =>
              if i = tagId then
                some { tag with state := STATE_PAID, paymentBlock := some ctx.height }
              else s.paymentTags i }) := by
  simp only [fulfillPaymentTag]
  cases hfind : s.paymentTags tagId with
  | none => exact Or.inl rfl
  | some tag =>
    simp only
    repeat' split
    all_goals first
      | exact Or.inl rfl
      | exact Or.inr ⟨tag, rfl, rfl⟩

/-- A cancel either leaves the state unchanged, or sets the looked-up tag to
`canceled` and bumps the statistics. -/
theorem cancelPaymentTag_state_cases (ctx : Ctx) (s : ContractState) (tagId : Nat) :
    (cancelPaymentTag ctx s tagId).2 = s ∨
    (∃ tag, s.paymentTags tagId = some tag ∧
      (cancelPaymentTag ctx s tagId).2 =
        incrementStat "tags-canceled"
          { s with paymentTags := fun i =>
              if i = tagId then some { tag with state := STATE_CANCELED }
              else s.paymentTags i }) := by
  simp only [cancelPaymentTag]
  cases hfind : s.paymentTags tagId with
  | none => exact Or.inl rfl
  | some tag =>
    simp only
    repeat' split
    all_goals first
      | exact Or.inl rfl
      | exact Or.inr ⟨tag, rfl, rfl⟩

/-- An expire either leaves the state unchanged, or sets the looked-up tag
to `expired` and bumps the statistics. -/
theorem expirePaymentTag_state_cases (ctx : Ctx) (s : ContractState) (tagId : Nat) :
    (expirePaymentTag ctx s tagId).2 = s ∨
    (∃ tag, s.paymentTags tagId = some tag ∧
      (expirePaymentTag ctx s tagId).2 =
        incrementStat "tags-expired"
          { s with paymentTags := fun i =>
              if i = tagId then some { tag with state := STATE_EXPIRED }
              else s.paymentTags i }) := by
  simp only [expirePaymentTag]
  cases hfind : s.paymentTags tagId with
  | none => exact Or.inl rfl
  | some tag =>
    simp only
    repeat' split
    all_goals first
      | exact Or.inl rfl
      | exact Or.inr ⟨tag, rfl, rfl⟩

/-- A pause toggle either leaves the state unchanged or flips the flag. -/
theorem toggleContractPause_state_cases (d : Principal) (ctx : Ctx)
    (s : ContractState) :
    (toggleContractPause d ctx s).2 = s ∨
    (toggleContractPause d ctx s).2 = { s with contractPaused := !s.contractPaused } := by
  simp only [toggleContractPause]
  split
  · exact Or.inr rfl
  · exact Or.inl rfl

theorem asMaxLen_eq_some {l l2 : List Nat} {n : Nat} (h : asMaxLen l n = some l2) :
    l2 = l := by
  unfold asMaxLen at h
  split at h
  · injection h with h
    exact h.symm
  · cases h

/-- The creator index after an append: unchanged, or the party's entry got
the id appended and the count bumped. -/
theorem addToCreatorIndex_entry_cases (c id : Nat) (x : ContractState) (p : Principal) :
    ((addToCreatorIndex c id x).2).creatorIndex p = x.creatorIndex p ∨
    (p = c ∧ ((addToCreatorIndex c id x).2).creatorIndex p =
      some { tagIds := creatorList x c ++ [id],
             count := ((x.creatorIndex c).getD { tagIds := [], count := 0 }).count + 1 }) := by
  cases hm : asMaxLen (((x.creatorIndex c).getD { tagIds := [], count := 0 }).tagIds
      ++ [id]) MAX_TAGS_PER_USER with
  | none => left; simp [addToCreatorIndex, hm]
  | some nl =>
    by_cases hp : p = c
    · right
      refine ⟨hp, ?_⟩
      simp [addToCreatorIndex, hm, hp, asMaxLen_eq_some hm, creatorList]
    · left
      simp [addToCreatorIndex, hm, hp]

/-- The recipient index after an append: unchanged, or the party's entry got
the id appended and the count bumped. -/
theorem addToRecipientIndex_entry_cases (c id : Nat) (x : ContractState) (p : Principal) :
    ((addToRecipientIndex c id x).2).recipientIndex p = x.recipientIndex p ∨
    (p = c ∧ ((addToRecipientIndex c id x).2).recipientIndex p =
      some { tagIds := recipientList x c ++ [id],
             count := ((x.recipientIndex c).getD { tagIds := [], count := 0 }).count + 1 }) := by
  cases hm : asMaxLen (((x.recipientIndex c).getD { tagIds := [], count := 0 }).tagIds
      ++ [id]) MAX_TAGS_PER_USER with
  | none => left; simp [addToRecipientIndex, hm]
  | some nl =>
    by_cases hp : p = c
    · right
      refine ⟨hp, ?_⟩
      simp [addToRecipientIndex, hm, hp, asMaxLen_eq_some hm, recipientList]
    · left
      simp [addToRecipientIndex, hm, hp]

/-- `createPaymentTag_cases` with the intermediate registry-written state
exposed through its fields. -/
theorem createPaymentTag_ok_cases (ctx : Ctx) (s : ContractState) (r a e : Nat)
    (m : Option String) :
    ((∃ err, (createPaymentTag ctx s r a e m).1 = .error err) ∧
      (createPaymentTag ctx s r a e m).2 = s) ∨
    ((createPaymentTag ctx s r a e m).1 = .ok (s.tagCounter + 1) ∧
      ∃ s1 tagNew,
        s1.creatorIndex = s.creatorIndex ∧
        s1.recipientIndex = s.recipientIndex ∧
        s1.tagCounter = s.tagCounter + 1 ∧
        Tag.creator tagNew = ctx.txSender ∧
        Tag.recipient tagNew = r ∧
        Tag.amount tagNew = a ∧
        Tag.createdAt tagNew = ctx.height ∧
        Tag.expiresAt tagNew = ctx.height + e ∧
        Tag.memo tagNew = m ∧
        Tag.state tagNew = STATE_PENDING ∧
        Tag.paymentTx tagNew = none ∧
        Tag.paymentBlock tagNew = none ∧
        (∀ i, s1.paymentTags i =
          if i = s.tagCounter + 1 then some tagNew else s.paymentTags i) ∧
        (createPaymentTag ctx s r a e m).2 =
          incrementStat "tags-created"
            (addToRecipientIndex r (s.tagCounter + 1)
              (addToCreatorIndex ctx.txSender (s.tagCounter + 1) s1).2).2) := by
  rcases createPaymentTag_cases ctx s r a e m with h | ⟨hok, hst⟩
  · exact Or.inl h
  · refine Or.inr ⟨hok,
      { s with
        paymentTags := fun i =>
          if i = s.tagCounter + 1 then
            some { creator := ctx.txSender, recipient := r, amount := a,
                   createdAt := ctx.height, expiresAt := ctx.height + e,
                   memo := m, state := STATE_PENDING, paymentTx := none,
                   paymentBlock := none }
          else s.paymentTags i
        tagCounter := s.tagCounter + 1 },
      { creator := ctx.txSender, recipient := r, amount := a,
        createdAt := ctx.height, expiresAt := ctx.height + e,
        memo := m, state := STATE_PENDING, paymentTx := none,
        paymentBlock := none },
      rfl, rfl, rfl, rfl, rfl, rfl, rfl, rfl, rfl, rfl, rfl, rfl,
      fun i => rfl, hst⟩

/-- The id list of a successful create is `[tag-counter + 1]`, of anything
else `[]`. -/
theorem stepCreated_cases (s : ContractState) (op : Op) :
    stepCreated s op = [] ∨ stepCreated s op = [s.tagCounter + 1] := by
  cases op with
  | create c h r a e m =>
    rcases createPaymentTag_cases ⟨c, h⟩ s r a e m with ⟨⟨err, herr⟩, _⟩ | ⟨hok, _⟩
    · left; simp [stepCreated, herr]
    · right; simp [stepCreated, hok]
  | fulfill c h id tr => left; rfl
  | cancel c h id => left; rfl
  | expire c h id => left; rfl
  | toggle c => left; rfl

/-- The id counter advances by exactly the number of ids a step returns. -/
theorem step_tagCounter (d : Principal) (s : ContractState) (op : Op) :
    (step d s op).tagCounter = s.tagCounter + (stepCreated s op).length := by
  cases op with
  | create c h r a e m =>
    rcases createPaymentTag_cases ⟨c, h⟩ s r a e m with ⟨⟨err, herr⟩, hst⟩ | ⟨hok, hst⟩
    · simp [step, stepCreated, herr, hst]
    · simp [step, stepCreated, hok, hst, incrementStat_tagCounter,
        addToRecipientIndex_tagCounter, addToCreatorIndex_tagCounter]
  | fulfill c h id tr =>
    rcases fulfillPaymentTag_state_cases (fun _ _ _ => tr) ⟨c, h⟩ s id with hst | ⟨tag, _, hst⟩ <;>
      simp [step, stepCreated, hst, incrementStat_tagCounter]
  | cancel c h id =>
    rcases cancelPaymentTag_state_cases ⟨c, h⟩ s id with hst | ⟨tag, _, hst⟩ <;>
      simp [step, stepCreated, hst, incrementStat_tagCounter]
  | expire c h id =>
    rcases expirePaymentTag_state_cases ⟨c, h⟩ s id with hst | ⟨tag, _, hst⟩ <;>
      simp [step, stepCreated, hst, incrementStat_tagCounter]
  | toggle c =>
    rcases toggleContractPause_state_cases d ⟨c, 0⟩ s with hst | hst <;>
      simp [step, stepCreated, hst]

theorem step_tagCounter_mono (d : Principal) (s : ContractState) (op : Op) :
    s.tagCounter ≤ (step d s op).tagCounter := by
  rw [step_tagCounter]
  exact Nat.le_add_right _ _

theorem runFrom_cons (d : Principal) (s : ContractState) (op : Op) (ops : List Op) :
    runFrom d s (op :: ops) = runFrom d (step d s op) ops := rfl

theorem runFrom_tagCounter_mono (d : Principal) (s : ContractState) (ops : List Op) :
    s.tagCounter ≤ (runFrom d s ops).tagCounter := by
  induction ops generalizing s with
  | nil => exact Nat.le_refl _
  | cons op rest ih =>
    exact Nat.le_trans (step_tagCounter_mono d s op) (ih (step d s op))

/-- Every step either leaves a party's creator-index list unchanged, or
appends exactly the freshly assigned id `tag-counter + 1` to it. -/
theorem step_creatorList_cases (d : Principal) (s : ContractState) (op : Op)
    (p : Principal) :
    creatorList (step d s op) p = creatorList s p ∨
    ((step d s op).tagCounter = s.tagCounter + 1 ∧
      creatorList (step d s op) p = creatorList s p ++ [s.tagCounter + 1]) := by
  cases op with
  | create c h r a e m =>
    rcases createPaymentTag_ok_cases ⟨c, h⟩ s r a e m with ⟨⟨err, herr⟩, hst⟩ |
      ⟨hok, s1, tagNew, hci, hri, hcnt, _, _, _, _, _, _, _, _, _, hpt, hst⟩
    · exact Or.inl (by simp only [step, hst])
    · have hcounter : (step d s (Op.create c h r a e m)).tagCounter = s.tagCounter + 1 := by
        simp only [step, hst, incrementStat_tagCounter, addToRecipientIndex_tagCounter,
          addToCreatorIndex_tagCounter, hcnt]
      have hlist : creatorList (step d s (Op.create c h r a e m)) p =
          creatorList ((addToCreatorIndex c (s.tagCounter + 1) s1).2) p := by
        simp only [step, hst, creatorList_incrementStat, creatorList_addToRecipientIndex]
      have hs1list : ∀ q, creatorList s1 q = creatorList s q := by
        intro q
        simp only [creatorList, hci]
      by_cases hroom : (creatorList s1 c).length < MAX_TAGS_PER_USER
      · rw [addToCreatorIndex_list_of_room c (s.tagCounter + 1) s1 hroom p] at hlist
        by_cases hp : p = c
        · rw [if_pos hp, hs1list c] at hlist
          refine Or.inr ⟨hcounter, ?_⟩
          rw [hlist, hp]
        · rw [if_neg hp, hs1list p] at hlist
          exact Or.inl hlist
      · rw [addToCreatorIndex_full c (s.tagCounter + 1) s1 hroom, hs1list p] at hlist
        exact Or.inl hlist
  | fulfill c h id tr =>
    rcases fulfillPaymentTag_state_cases (fun _ _ _ => tr) ⟨c, h⟩ s id with hst | ⟨tag, _, hst⟩ <;>
      exact Or.inl (by simp only [step, hst]; try rfl)
  | cancel c h id =>
    rcases cancelPaymentTag_state_cases ⟨c, h⟩ s id with hst | ⟨tag, _, hst⟩ <;>
      exact Or.inl (by simp only [step, hst]; try rfl)
  | expire c h id =>
    rcases expirePaymentTag_state_cases ⟨c, h⟩ s id with hst | ⟨tag, _, hst⟩ <;>
      exact Or.inl (by simp only [step, hst]; try rfl)
  | toggle c =>
    rcases toggleContractPause_state_cases d ⟨c, 0⟩ s with hst | hst <;>
      exact Or.inl (by simp only [step, hst]; try rfl)

/-- Every step either leaves a party's recipient-index list unchanged, or
appends exactly the freshly assigned id `tag-counter + 1` to it. -/
theorem step_recipientList_cases (d : Principal) (s : ContractState) (op : Op)
    (p : Principal) :
    recipientList (step d s op) p = recipientList s p ∨
    ((step d s op).tagCounter = s.tagCounter + 1 ∧
      recipientList (step d s op) p = recipientList s p ++ [s.tagCounter + 1]) := by
  cases op with
  | create c h r a e m =>
    rcases createPaymentTag_ok_cases ⟨c, h⟩ s r a e m with ⟨⟨err, herr⟩, hst⟩ |
      ⟨hok, s1, tagNew, hci, hri, hcnt, _, _, _, _, _, _, _, _, _, hpt, hst⟩
    · exact Or.inl (by simp only [step, hst])
    · have hcounter : (step d s (Op.create c h r a e m)).tagCounter = s.tagCounter + 1 := by
        simp only [step, hst, incrementStat_tagCounter, addToRecipientIndex_tagCounter,
          addToCreatorIndex_tagCounter, hcnt]
      have hmid : ∀ q, recipientList ((addToCreatorIndex c (s.tagCounter + 1) s1).2) q =
          recipientList s q := by
        intro q
        rw [recipientList_addToCreatorIndex]
        simp only [recipientList, hri]
      have hlist : recipientList (step d s (Op.create c h r a e m)) p =
          recipientList ((addToRecipientIndex r (s.tagCounter + 1)
            (addToCreatorIndex c (s.tagCounter + 1) s1).2).2) p := by
        simp only [step, hst, recipientList_incrementStat]
      by_cases hroom : (recipientList ((addToCreatorIndex c (s.tagCounter + 1) s1).2) r).length
          < MAX_TAGS_PER_USER
      · rw [addToRecipientIndex_list_of_room r (s.tagCounter + 1) _ hroom p] at hlist
        by_cases hp : p = r
        · rw [if_pos hp, hmid r] at hlist
          refine Or.inr ⟨hcounter, ?_⟩
          rw [hlist, hp]
        · rw [if_neg hp, hmid p] at hlist
          exact Or.inl hlist
      · rw [addToRecipientIndex_full r (s.tagCounter + 1) _ hroom, hmid p] at hlist
        exact Or.inl hlist
  | fulfill c h id tr =>
    rcases fulfillPaymentTag_state_cases (fun _ _ _ => tr) ⟨c, h⟩ s id with hst | ⟨tag, _, hst⟩ <;>
      exact Or.inl (by simp only [step, hst]; try rfl)
  | cancel c h id =>
    rcases cancelPaymentTag_state_cases ⟨c, h⟩ s id with hst | ⟨tag, _, hst⟩ <;>
      exact Or.inl (by simp only [step, hst]; try rfl)
  | expire c h id =>
    rcases expirePaymentTag_state_cases ⟨c, h⟩ s id with hst | ⟨tag, _, hst⟩ <;>
      exact Or.inl (by simp only [step, hst]; try rfl)
  | toggle c =>
    rcases toggleContractPause_state_cases d ⟨c, 0⟩ s with hst | hst <;>
      exact Or.inl (by simp only [step, hst]; try rfl)

/-- A registry key occupied after a step was occupied before, or is the
freshly assigned id. -/
theorem step_paymentTags_isSome_cases (d : Principal) (s : ContractState)
    (op : Op) (i : Nat) (hi : ((step d s op).paymentTags i).isSome = true) :
    (s.paymentTags i).isSome = true ∨
    (i = s.tagCounter + 1 ∧ (step d s op).tagCounter = s.tagCounter + 1) := by
  cases op with
  | create c h r a e m =>
    rcases createPaymentTag_ok_cases ⟨c, h⟩ s r a e m with ⟨⟨err, herr⟩, hst⟩ |
      ⟨hok, s1, tagNew, hci, hri, hcnt, _, _, _, _, _, _, _, _, _, hpt, hst⟩
    · simp only [step, hst] at hi
      exact Or.inl hi
    · have hcounter : (step d s (Op.create c h r a e m)).tagCounter = s.tagCounter + 1 := by
        simp only [step, hst, incrementStat_tagCounter, addToRecipientIndex_tagCounter,
          addToCreatorIndex_tagCounter, hcnt]
      have hflat : (step d s (Op.create c h r a e m)).paymentTags = s1.paymentTags := by
        simp only [step, hst, incrementStat_paymentTags, addToRecipientIndex_paymentTags,
          addToCreatorIndex_paymentTags]
      rw [hflat, hpt i] at hi
      by_cases hieq : i = s.tagCounter + 1
      · exact Or.inr ⟨hieq, hcounter⟩
      · rw [if_neg hieq] at hi
        exact Or.inl hi
  | fulfill c h id tr =>
    rcases fulfillPaymentTag_state_cases (fun _ _ _ => tr) ⟨c, h⟩ s id with hst | ⟨tag, hfind, hst⟩
    · simp only [step, hst] at hi
      exact Or.inl hi
    · simp only [step, hst, incrementStat_paymentTags] at hi
      by_cases hieq : i = id
      · subst hieq
        exact Or.inl (by rw [hfind]; rfl)
      · simp only [if_neg hieq] at hi
        exact Or.inl hi
  | cancel c h id =>
    rcases cancelPaymentTag_state_cases ⟨c, h⟩ s id with hst | ⟨tag, hfind, hst⟩
    · simp only [step, hst] at hi
      exact Or.inl hi
    · simp only [step, hst, incrementStat_paymentTags] at hi
      by_cases hieq : i = id
      · subst hieq
        exact Or.inl (by rw [hfind]; rfl)
      · simp only [if_neg hieq] at hi
        exact Or.inl hi
  | expire c h id =>
    rcases expirePaymentTag_state_cases ⟨c, h⟩ s id with hst | ⟨tag, hfind, hst⟩
    · simp only [step, hst] at hi
      exact Or.inl hi
    · simp only [step, hst, incrementStat_paymentTags] at hi
      by_cases hieq : i = id
      · subst hieq
        exact Or.inl (by rw [hfind]; rfl)
      · simp only [if_neg hieq] at hi
        exact Or.inl hi
  | toggle c =>
    rcases toggleContractPause_state_cases d ⟨c, 0⟩ s with hst | hst <;>
      · simp only [step, hst] at hi
        exact Or.inl hi

/-- A step either leaves a party's creator-index entry unchanged, or
replaces it by the entry with one id appended and the count bumped. -/
theorem step_creatorIndex_entry_cases (d : Principal) (s : ContractState)
    (op : Op) (p : Principal) :
    (step d s op).creatorIndex p = s.creatorIndex p ∨
    (∃ id, (step d s op).creatorIndex p =
      some { tagIds := creatorList s p ++ [id],
             count := ((s.creatorIndex p).getD { tagIds := [], count := 0 }).count + 1 }) := by
  cases op with
  | create c h r a e m =>
    rcases createPaymentTag_ok_cases ⟨c, h⟩ s r a e m with ⟨⟨err, herr⟩, hst⟩ |
      ⟨hok, s1, tagNew, hci, hri, hcnt, _, _, _, _, _, _, _, _, _, hpt, hst⟩
    · exact Or.inl (by simp only [step, hst])
    · have hflat : (step d s (Op.create c h r a e m)).creatorIndex =
          ((addToCreatorIndex c (s.tagCounter + 1) s1).2).creatorIndex := by
        simp only [step, hst, incrementStat_creatorIndex, addToRecipientIndex_creatorIndex]
      rcases addToCreatorIndex_entry_cases c (s.tagCounter + 1) s1 p with heq | ⟨hp, heq⟩
    
      · exact Or.inl (by rw [hflat, heq, hci])
      · subst hp
        refine Or.inr ⟨s.tagCounter + 1, ?_⟩
        rw [hflat, heq]
        simp only [creatorList, hci]
  | fulfill c h id tr =>
    rcases fulfillPaymentTag_state_cases (fun _ _ _ => tr) ⟨c, h⟩ s id with hst | ⟨tag, _, hst⟩ <;>
      exact Or.inl (by simp only [step, hst]; try rfl)
  | cancel c h id =>
    rcases cancelPaymentTag_state_cases ⟨c, h⟩ s id with hst | ⟨tag, _, hst⟩ <;>
      exact Or.inl (by simp only [step, hst]; try rfl)
  | expire c h id =>
    rcases expirePaymentTag_state_cases ⟨c, h⟩ s id with hst | ⟨tag, _, hst⟩ <;>
      exact Or.inl (by simp only [step, hst]; try rfl)
  | toggle c =>
    rcases toggleContractPause_state_cases d ⟨c, 0⟩ s with hst | hst <;>
      exact Or.inl (by simp only [step, hst]; try rfl)

/-- A step either leaves a party's recipient-index entry unchanged, or
replaces it by the entry with one id appended and the count bumped. -/
theorem step_recipientIndex_entry_cases (d : Principal) (s : ContractState)
    (op : Op) (p : Principal) :
    (step d s op).recipientIndex p = s.recipientIndex p ∨
    (∃ id, (step d s op).recipientIndex p =
      some { tagIds := recipientList s p ++ [id],
             count := ((s.recipientIndex p).getD { tagIds := [], count := 0 }).count + 1 }) := by
  cases op with
  | create c h r a e m =>
    rcases createPaymentTag_ok_cases ⟨c, h⟩ s r a e m with ⟨⟨err, herr⟩, hst⟩ |
      ⟨hok, s1, tagNew, hci, hri, hcnt, _, _, _, _, _, _, _, _, _, hpt, hst⟩
    · exact Or.inl (by simp only [step, hst])
    · have hmidri : ((addToCreatorIndex c (s.tagCounter + 1) s1).2).recipientIndex =
          s.recipientIndex := by
        rw [addToCreatorIndex_recipientIndex, hri]
      have hflat : (step d s (Op.create c h r a e m)).recipientIndex =
          ((addToRecipientIndex r (s.tagCounter + 1)
            (addToCreatorIndex c (s.tagCounter + 1) s1).2).2).recipientIndex := by
        simp only [step, hst, incrementStat_recipientIndex]
      rcases addToRecipientIndex_entry_cases r (s.tagCounter + 1)
          ((addToCreatorIndex c (s.tagCounter + 1) s1).2) p with heq | ⟨hp, heq⟩
      · exact Or.inl (by rw [hflat, heq, hmidri])
      · subst hp
        refine Or.inr ⟨s.tagCounter + 1, ?_⟩
        rw [hflat, heq]
        simp only [recipientList, hmidri]
  | fulfill c h id tr =>
    rcases fulfillPaymentTag_state_cases (fun _ _ _ => tr) ⟨c, h⟩ s id with hst | ⟨tag, _, hst⟩ <;>
      exact Or.inl (by simp only [step, hst]; try rfl)
  | cancel c h id =>
    rcases cancelPaymentTag_state_cases ⟨c, h⟩ s id with hst | ⟨tag, _, hst⟩ <;>
      exact Or.inl (by simp only [step, hst]; try rfl)
  | expire c h id =>
    rcases expirePaymentTag_state_cases ⟨c, h⟩ s id with hst | ⟨tag, _, hst⟩ <;>
      exact Or.inl (by simp only [step, hst]; try rfl)
  | toggle c =>
    rcases toggleContractPause_state_cases d ⟨c, 0⟩ s with hst | hst <;>
      exact Or.inl (by simp only [step, hst]; try rfl)

/-! ### Reachable-state invariants -/

/-- Every occupied registry key is positive and bounded by the counter. -/
def RegBounded (s : ContractState) : Prop :=
  ∀ i, (s.paymentTags i).isSome = true → 0 < i ∧ i ≤ s.tagCounter

/-- Every id in either index is positive and bounded by the counter. -/
def IdxBounded (s : ContractState) : Prop :=
  ∀ p, (∀ j ∈ creatorList s p, 0 < j ∧ j ≤ s.tagCounter) ∧
       (∀ j ∈ recipientList s p, 0 < j ∧ j ≤ s.tagCounter)

/-- Every index entry's count equals the length of its id list. -/
def IdxCounts (s : ContractState) : Prop :=
  ∀ p, (∀ en, s.creatorIndex p = some en → en.count = en.tagIds.length) ∧
       (∀ en, s.recipientIndex p = some en → en.count = en.tagIds.length)

theorem step_RegBounded (d : Principal) (s : ContractState) (op : Op)
    (h : RegBounded s) : RegBounded (step d s op) := by
  intro i hi
  rcases step_paymentTags_isSome_cases d s op i hi with hold | ⟨hieq, hc⟩
  · obtain ⟨h1, h2⟩ := h i hold
    exact ⟨h1, Nat.le_trans h2 (step_tagCounter_mono d s op)⟩
  · subst hieq
    rw [hc]
    omega

theorem runFrom_RegBounded (d : Principal) (s : ContractState) (ops : List Op)
    (h : RegBounded s) : RegBounded (runFrom d s ops) := by
  induction ops generalizing s with
  | nil => exact h
  | cons op rest ih => exact ih (step d s op) (step_RegBounded d s op h)

theorem run_RegBounded (d : Principal) (ops : List Op) : RegBounded (run d ops) := by
  refine runFrom_RegBounded d initState ops ?_
  intro i hi
  simp [initState] at hi

theorem step_IdxBounded (d : Principal) (s : ContractState) (op : Op)
    (h : IdxBounded s) : IdxBounded (step d s op) := by
  have hmono := step_tagCounter_mono d s op
  intro p
  constructor
  · intro j hj
    rcases step_creatorList_cases d s op p with heq | ⟨hc, heq⟩
    · obtain ⟨h1, h2⟩ := (h p).1 j (heq ▸ hj)
      exact ⟨h1, Nat.le_trans h2 hmono⟩
    · rw [heq] at hj
      rcases List.mem_append.1 hj with hj | hj
      · obtain ⟨h1, h2⟩ := (h p).1 j hj
        exact ⟨h1, Nat.le_trans h2 hmono⟩
      · rw [List.mem_singleton.1 hj, hc]
        omega
  · intro j hj
    rcases step_recipientList_cases d s op p with heq | ⟨hc, heq⟩
    · obtain ⟨h1, h2⟩ := (h p).2 j (heq ▸ hj)
      exact ⟨h1, Nat.le_trans h2 hmono⟩
    · rw [heq] at hj
      rcases List.mem_append.1 hj with hj | hj
      · obtain ⟨h1, h2⟩ := (h p).2 j hj
        exact ⟨h1, Nat.le_trans h2 hmono⟩
      · rw [List.mem_singleton.1 hj, hc]
        omega

theorem runFrom_IdxBounded (d : Principal) (s : ContractState) (ops : List Op)
    (h : IdxBounded s) : IdxBounded (runFrom d s ops) := by
  induction ops generalizing s with
  | nil => exact h
  | cons op rest ih => exact ih (step d s op) (step_IdxBounded d s op h)

theorem run_IdxBounded (d : Principal) (ops : List Op) : IdxBounded (run d ops) := by
  refine runFrom_IdxBounded d initState ops ?_
  intro p
  constructor <;> intro j hj <;> simp [creatorList, recipientList, initState] at hj

theorem step_IdxCounts (d : Principal) (s : ContractState) (op : Op)
    (h : IdxCounts s) : IdxCounts (step d s op) := by
  intro p
  constructor
  · intro en hen
    rcases step_creatorIndex_entry_cases d s op p with heq | ⟨id, heq⟩
    · exact (h p).1 en (heq ▸ hen)
    · rw [heq] at hen
      injection hen with hen
      subst hen
      cases hcp : s.creatorIndex p with
      | none => simp [creatorList, hcp]
      | some en0 =>
        have := (h p).1 en0 hcp
        simp [creatorList, hcp, this]
  · intro en hen
    rcases step_recipientIndex_entry_cases d s op p with heq | ⟨id, heq⟩
    · exact (h p).2 en (heq ▸ hen)
    · rw [heq] at hen
      injection hen with hen
      subst hen
      cases hcp : s.recipientIndex p with
      | none => simp [recipientList, hcp]
      | some en0 =>
        have := (h p).2 en0 hcp
        simp [recipientList, hcp, this]

theorem runFrom_IdxCounts (d : Principal) (s : ContractState) (ops : List Op)
    (h : IdxCounts s) : IdxCounts (runFrom d s ops) := by
  induction ops generalizing s with
  | nil => exact h
  | cons op rest ih => exact ih (step d s op) (step_IdxCounts d s op h)

theorem run_IdxCounts (d : Principal) (ops : List Op) : IdxCounts (run d ops) := by
  refine runFrom_IdxCounts d initState ops ?_
  intro p
  constructor <;> intro en hen <;> simp [initState] at hen

/-- The ids returned by the successful creates of a run are the consecutive
integers following the starting counter. -/
theorem createdIdsFrom_range (d : Principal) (s : ContractState) (ops : List Op) :
    createdIdsFrom d s ops =
      List.range' (s.tagCounter + 1) ((runFrom d s ops).tagCounter - s.tagCounter) := by
  induction ops generalizing s with
  | nil => simp [createdIdsFrom, runFrom]
  | cons op rest ih =>
    have hstep := step_tagCounter d s op
    have hmono := runFrom_tagCounter_mono d (step d s op) rest
    rcases stepCreated_cases s op with hc | hc
    · rw [createdIdsFrom, hc, List.nil_append, runFrom_cons, ih (step d s op)]
      rw [hc] at hstep
      simp only [List.length_nil, Nat.add_zero] at hstep
      rw [hstep]
    · rw [createdIdsFrom, hc, runFrom_cons, ih (step d s op)]
      rw [hc] at hstep
      simp only [List.length_singleton] at hstep
      rw [hstep] at hmono ⊢
      have hF : (runFrom d (step d s op) rest).tagCounter - s.tagCounter
          = ((runFrom d (step d s op) rest).tagCounter - (s.tagCounter + 1)) + 1 := by
        omega
      rw [hF, List.range'_succ]
      simp

/-! ### Claim theorems -/

/-- C8: across every operation sequence from deployment, the ids returned
by the successful creates are exactly the consecutive integers
`1, 2, ..., n` (strictly increasing, no gaps, no reuse, starting at 1), and
the id counter of the resulting state equals the number of successful
creates. -/
theorem monotonic_ids (d : Principal) (ops : List Op) :
    createdIdsFrom d initState ops = List.range' 1 ((run d ops).tagCounter) ∧
    (createdIdsFrom d initState ops).length = (run d ops).tagCounter := by
  have h := createdIdsFrom_range d initState ops
  have h0 : initState.tagCounter = 0 := rfl
  rw [run] at *
  constructor
  · rw [h, h0]
    simp
  · rw [h, h0]
    simp

/-- C9: in every reachable state, every occupied registry key is positive
and at most the id counter; hence, once the lookup in `fulfill`, `cancel`
or `expire` succeeds, the `tag-id > 0` and `tag-id <= counter` assertions
hold and their error branches cannot fire (for `fulfill`, provided the
external transfer does not itself return those two error codes). -/
theorem registry_id_bounds (d : Principal) (ops : List Op) (i : Nat)
    (hi : ((run d ops).paymentTags i).isSome = true) :
    (0 < i ∧ i ≤ (run d ops).tagCounter) ∧
    (∀ ctx, (cancelPaymentTag ctx (run d ops) i).1 ≠ .error ERR_INVALID_AMOUNT ∧
            (cancelPaymentTag ctx (run d ops) i).1 ≠ .error ERR_NOT_FOUND ∧
            (expirePaymentTag ctx (run d ops) i).1 ≠ .error ERR_INVALID_AMOUNT ∧
            (expirePaymentTag ctx (run d ops) i).1 ≠ .error ERR_NOT_FOUND) ∧
    (∀ (transfer : Transfer) (ctx : Ctx),
      (∀ x y z e2, transfer x y z = .error e2 →
        e2 ≠ ERR_INVALID_AMOUNT ∧ e2 ≠ ERR_NOT_FOUND) →
      (fulfillPaymentTag transfer ctx (run d ops) i).result ≠ .error ERR_INVALID_AMOUNT ∧
      (fulfillPaymentTag transfer ctx (run d ops) i).result ≠ .error ERR_NOT_FOUND) := by
  obtain ⟨h0, hle⟩ := run_RegBounded d ops i hi
  refine ⟨⟨h0, hle⟩, ?_, ?_⟩
  · intro ctx
    cases hfind : (run d ops).paymentTags i with
    | none => rw [hfind] at hi; cases hi
    | some tag =>
      refine ⟨?_, ?_, ?_, ?_⟩ <;>
        · simp only [cancelPaymentTag, expirePaymentTag, hfind]
          repeat' split
          all_goals
            simp [ERR_NOT_PENDING, ERR_UNAUTHORIZED, ERR_INVALID_AMOUNT,
              ERR_NOT_FOUND, ERR_EXPIRED]
  · intro transfer ctx htr
    cases hfind : (run d ops).paymentTags i with
    | none => rw [hfind] at hi; cases hi
    | some tag =>
      constructor <;>
        · simp only [fulfillPaymentTag, hfind]
          repeat' split
          all_goals
            try simp [ERR_NOT_PENDING, ERR_UNAUTHORIZED, ERR_INVALID_AMOUNT,
              ERR_NOT_FOUND, ERR_EXPIRED]
          all_goals
            (rename_i e2 heq
             obtain ⟨he1, he2⟩ := htr _ _ _ e2 heq
             simp only [ERR_INVALID_AMOUNT, ERR_NOT_FOUND] at he1 he2
             omega)

/-- Witness for C9 at a concrete reachable state. -/
theorem registry_id_bounds_witness :
    ((run 0 [Op.create 1 100 2 1000 10 none]).paymentTags 1).isSome = true ∧
    (0 < 1 ∧ 1 ≤ (run 0 [Op.create 1 100 2 1000 10 none]).tagCounter) := by
  refine ⟨by decide, (registry_id_bounds 0 [Op.create 1 100 2 1000 10 none] 1 (by decide)).1⟩

/-- C10: in every reachable state, every creator-index entry and every
recipient-index entry stores a count equal to the length of its id list. -/
theorem index_count_invariant (d : Principal) (ops : List Op) (p : Principal)
    (en : IndexEntry) :
    ((run d ops).creatorIndex p = some en → en.count = en.tagIds.length) ∧
    ((run d ops).recipientIndex p = some en → en.count = en.tagIds.length) :=
  ⟨fun hen => ((run_IdxCounts d ops) p).1 en hen,
   fun hen => ((run_IdxCounts d ops) p).2 en hen⟩

/-- Witness for C10 at a concrete reachable state. -/
theorem index_count_invariant_witness :
    (run 0 [Op.create 1 100 2 1000 10 none]).creatorIndex 1 =
      some { tagIds := [1], count := 1 } ∧
    IndexEntry.count { tagIds := [1], count := 1 } =
      (IndexEntry.tagIds { tagIds := [1], count := 1 }).length := by
  refine ⟨by decide,
    (index_count_invariant 0 [Op.create 1 100 2 1000 10 none] 1
      { tagIds := [1], count := 1 }).1 (by decide)⟩

/-- C2: if `fulfill` succeeds on a tag, the transfer primitive was invoked
exactly once with that tag's (amount, caller-as-payer, recipient) and
reported success, and the tag becomes `paid` with the settlement height
recorded; if the transfer primitive reports failure, the whole call fails
and the state is completely unchanged. -/
theorem atomic_settlement (transfer : Transfer) (ctx : Ctx) (s : ContractState)
    (tagId : Nat) (tag : Tag) (hfind : s.paymentTags tagId = some tag) :
    ((fulfillPaymentTag transfer ctx s tagId).result = .ok tagId →
      (fulfillPaymentTag transfer ctx s tagId).calls =
        [(tag.amount, ctx.txSender, tag.recipient)] ∧
      transfer tag.amount ctx.txSender tag.recipient = .ok () ∧
      (fulfillPaymentTag transfer ctx s tagId).state.paymentTags tagId =
        some { tag with state := STATE_PAID, paymentBlock := some ctx.height }) ∧
    (∀ e, transfer tag.amount ctx.txSender tag.recipient = .error e →
      (∃ e2, (fulfillPaymentTag transfer ctx s tagId).result = .error e2) ∧
      (fulfillPaymentTag transfer ctx s tagId).state = s) := by
  constructor
  · intro hok
    simp only [fulfillPaymentTag, hfind] at hok ⊢
    by_cases hp : s.contractPaused = true
    · rw [if_pos hp] at hok
      cases hok
    · rw [if_neg hp] at hok ⊢
      by_cases h0 : 0 < tagId
      · rw [if_pos h0] at hok ⊢
        by_cases hle : tagId ≤ s.tagCounter
        · rw [if_pos hle] at hok ⊢
          by_cases hpend : tag.state = STATE_PENDING
          · rw [if_pos hpend] at hok ⊢
            by_cases hexp : ctx.height < tag.expiresAt
            · rw [if_pos hexp] at hok ⊢
              cases htr : transfer tag.amount ctx.txSender tag.recipient with
              | error e =>
                rw [htr] at hok
                cases hok
              | ok u =>
                refine ⟨rfl, rfl, ?_⟩
                simp [incrementStat]
            · rw [if_neg hexp] at hok
              cases hok
          · rw [if_neg hpend] at hok
            cases hok
        · rw [if_neg hle] at hok
          cases hok
      · rw [if_neg h0] at hok
        cases hok
  · intro e htr
    simp only [fulfillPaymentTag, hfind]
    by_cases hp : s.contractPaused = true
    · rw [if_pos hp]
      exact ⟨⟨ERR_UNAUTHORIZED, rfl⟩, rfl⟩
    · rw [if_neg hp]
      by_cases h0 : 0 < tagId
      · rw [if_pos h0]
        by_cases hle : tagId ≤ s.tagCounter
        · rw [if_pos hle]
          by_cases hpend : tag.state = STATE_PENDING
          · rw [if_pos hpend]
            by_cases hexp : ctx.height < tag.expiresAt
            · rw [if_pos hexp, htr]
              exact ⟨⟨e, rfl⟩, rfl⟩
            · rw [if_neg hexp]
              exact ⟨⟨ERR_EXPIRED, rfl⟩, rfl⟩
          · rw [if_neg hpend]
            exact ⟨⟨ERR_NOT_PENDING, rfl⟩, rfl⟩
        · rw [if_neg hle]
          exact ⟨⟨ERR_NOT_FOUND, rfl⟩, rfl⟩
      · rw [if_neg h0]
        exact ⟨⟨ERR_INVALID_AMOUNT, rfl⟩, rfl⟩

/-- Witness for C2 at a concrete reachable state. -/
theorem atomic_settlement_witness :
    ((run 0 [Op.create 1 100 2 1000 10 none]).paymentTags 1 =
      some { creator := 1, recipient := 2, amount := 1000, createdAt := 100,
             expiresAt := 110, memo := none, state := "pending",
             paymentTx := none, paymentBlock := none }) ∧
    ((fulfillPaymentTag (fun _ _ _ => .ok ()) ⟨3, 105⟩
        (run 0 [Op.create 1 100 2 1000 10 none]) 1).calls = [(1000, 3, 2)] ∧
      (fun _ _ _ => (Except.ok () : Except Nat Unit)) 1000 3 2 = .ok () ∧
      (fulfillPaymentTag (fun _ _ _ => .ok ()) ⟨3, 105⟩
        (run 0 [Op.create 1 100 2 1000 10 none]) 1).state.paymentTags 1 =
        some { creator := 1, recipient := 2, amount := 1000, createdAt := 100,
               expiresAt := 110, memo := none, state := "paid",
               paymentTx := none, paymentBlock := some 105 }) := by
  refine ⟨by decide, (atomic_settlement (fun _ _ _ => .ok ()) ⟨3, 105⟩
    (run 0 [Op.create 1 100 2 1000 10 none]) 1
    { creator := 1, recipient := 2, amount := 1000, createdAt := 100,
      expiresAt := 110, memo := none, state := "pending",
      paymentTx := none, paymentBlock := none } (by decide)).1 (by decide)⟩

/-- C3: for a pending tag, `expire` fails at height `expires-at - 1` and
succeeds at every height at or above `expires-at` (inclusive check), while
`fulfill` succeeds at height `expires-at - 1` (given a successful transfer)
and fails with the expired error at every height at or above `expires-at`
(strict check): a tag cannot be fulfilled in the exact block it expires. -/
theorem expiration_boundary (s : ContractState) (tagId : Nat) (tag : Tag)
    (c : Principal) (hfind : s.paymentTags tagId = some tag)
    (hpend : tag.state = STATE_PENDING) (h0 : 0 < tagId)
    (hle : tagId ≤ s.tagCounter) (hpause : s.contractPaused = false)
    (hpos : 0 < tag.expiresAt) :
    ((expirePaymentTag ⟨c, tag.expiresAt - 1⟩ s tagId).1 = .error ERR_EXPIRED) ∧
    (∀ h, tag.expiresAt ≤ h → (expirePaymentTag ⟨c, h⟩ s tagId).1 = .ok tagId) ∧
    (∀ transfer : Transfer,
      transfer tag.amount c tag.recipient = .ok () →
      (fulfillPaymentTag transfer ⟨c, tag.expiresAt - 1⟩ s tagId).result = .ok tagId) ∧
    (∀ (transfer : Transfer) (h : Nat), tag.expiresAt ≤ h →
      (fulfillPaymentTag transfer ⟨c, h⟩ s tagId).result = .error ERR_EXPIRED) := by
  have hpausef : ¬ s.contractPaused = true := by rw [hpause]; simp
  refine ⟨?_, ?_, ?_, ?_⟩
  · have hnotexp : ¬ isTagExpired (tag.expiresAt - 1) tag.expiresAt = true := by
      simp only [isTagExpired, decide_eq_true_eq]
      omega
    simp only [expirePaymentTag, hfind, if_pos h0, if_pos hle, if_pos hpend,
      if_neg hnotexp]
  · intro h hh
    have hexp : isTagExpired h tag.expiresAt = true := by
      simp only [isTagExpired, decide_eq_true_eq]
      omega
    simp only [expirePaymentTag, hfind, if_pos h0, if_pos hle, if_pos hpend,
      if_pos hexp]
  · intro transfer htr
    have hlt : tag.expiresAt - 1 < tag.expiresAt := by omega
    simp only [fulfillPaymentTag, hfind, if_neg hpausef, if_pos h0, if_pos hle,
      if_pos hpend, if_pos hlt, htr]
  · intro transfer h hh
    have hnlt : ¬ h < tag.expiresAt := by omega
    simp only [fulfillPaymentTag, hfind, if_neg hpausef, if_pos h0, if_pos hle,
      if_pos hpend, if_neg hnlt]

/-- Witness for C3 at a concrete reachable state with `expires-at = 110`. -/
theorem expiration_boundary_witness :
    ((expirePaymentTag ⟨5, 109⟩ (run 0 [Op.create 1 100 2 1000 10 none]) 1).1 =
      .error ERR_EXPIRED) ∧
    ((expirePaymentTag ⟨5, 110⟩ (run 0 [Op.create 1 100 2 1000 10 none]) 1).1 =
      .ok 1) ∧
    ((fulfillPaymentTag (fun _ _ _ => .ok ()) ⟨5, 109⟩
        (run 0 [Op.create 1 100 2 1000 10 none]) 1).result = .ok 1) ∧
    ((fulfillPaymentTag (fun _ _ _ => .ok ()) ⟨5, 110⟩
        (run 0 [Op.create 1 100 2 1000 10 none]) 1).result = .error ERR_EXPIRED) := by
  have h := expiration_boundary (run 0 [Op.create 1 100 2 1000 10 none]) 1
    { creator := 1, recipient := 2, amount := 1000, createdAt := 100,
      expiresAt := 110, memo := none, state := "pending",
      paymentTx := none, paymentBlock := none } 5
    (by decide) (by decide) (by decide) (by decide) (by decide) (by decide)
  exact ⟨h.1, h.2.1 110 (by decide), h.2.2.1 _ (by decide),
    h.2.2.2 _ 110 (by decide)⟩

/-- C4 counterexample: at a reachable state whose tag 1 is `paid`, a cancel
by a caller other than the creator fails with the unauthorized error, not
the not-pending error (the creator check precedes the state check), so a
terminal tag does not always fail with a not-pending error. -/
theorem terminal_state_error_cex :
    (((run 0 [Op.create 1 100 2 1000 10 none,
        Op.fulfill 3 105 1 (Except.ok ())]).paymentTags 1).map Tag.state =
      some "paid") ∧
    ((cancelPaymentTag ⟨4, 200⟩
        (run 0 [Op.create 1 100 2 1000 10 none,
          Op.fulfill 3 105 1 (Except.ok ())]) 1).1 = .error ERR_UNAUTHORIZED) ∧
    ERR_UNAUTHORIZED ≠ ERR_NOT_PENDING := by
  decide

/-- C4 amended: once a tag is `paid`, `canceled` or `expired`, every further
fulfill, cancel or expire on it fails and leaves the state unchanged (and
no transfer is invoked); the error is the not-pending error whenever the
pause gate (for fulfill) and the creator check (for cancel) pass, and the
unauthorized error otherwise. -/
theorem terminal_state_immutability (s : ContractState) (tagId : Nat) (tag : Tag)
    (hfind : s.paymentTags tagId = some tag)
    (hterm : tag.state = STATE_PAID ∨ tag.state = STATE_CANCELED ∨
      tag.state = STATE_EXPIRED)
    (h0 : 0 < tagId) (hle : tagId ≤ s.tagCounter) :
    ∀ (ctx : Ctx) (transfer : Transfer),
      ((fulfillPaymentTag transfer ctx s tagId).result =
        .error (if s.contractPaused = true then ERR_UNAUTHORIZED else ERR_NOT_PENDING) ∧
       (fulfillPaymentTag transfer ctx s tagId).state = s ∧
       (fulfillPaymentTag transfer ctx s tagId).calls = []) ∧
      ((cancelPaymentTag ctx s tagId).1 =
        .error (if ctx.txSender = tag.creator then ERR_NOT_PENDING else ERR_UNAUTHORIZED) ∧
       (cancelPaymentTag ctx s tagId).2 = s) ∧
      ((expirePaymentTag ctx s tagId).1 = .error ERR_NOT_PENDING ∧
       (expirePaymentTag ctx s tagId).2 = s) := by
  intro ctx transfer
  have hnp : ¬ tag.state = STATE_PENDING := by
    rcases hterm with h | h | h <;> rw [h] <;>
      simp [STATE_PAID, STATE_CANCELED, STATE_EXPIRED, STATE_PENDING]
  refine ⟨?_, ?_, ?_⟩
  · simp only [fulfillPaymentTag, hfind]
    by_cases hp : s.contractPaused = true
    · rw [if_pos hp, if_pos hp]
      exact ⟨rfl, rfl, rfl⟩
    · rw [if_neg hp, if_neg hp, if_pos h0, if_pos hle, if_neg hnp]
      exact ⟨rfl, rfl, rfl⟩
  · simp only [cancelPaymentTag, hfind, if_pos h0, if_pos hle]
    by_cases hc : ctx.txSender = tag.creator
    · rw [if_pos hc, if_pos hc, if_neg hnp]
      exact ⟨rfl, rfl⟩
    · rw [if_neg hc, if_neg hc]
      exact ⟨rfl, rfl⟩
  · simp only [expirePaymentTag, hfind, if_pos h0, if_pos hle, if_neg hnp]
    exact ⟨trivial, trivial⟩

/-- Witness for the amended C4 at a concrete reachable `paid` state. -/
theorem terminal_state_immutability_witness :
    ((run 0 [Op.create 1 100 2 1000 10 none,
        Op.fulfill 3 105 1 (Except.ok ())]).paymentTags 1 =
      some { creator := 1, recipient := 2, amount := 1000, createdAt := 100,
             expiresAt := 110, memo := none, state := "paid",
             paymentTx := none, paymentBlock := some 105 }) ∧
    ((expirePaymentTag ⟨4, 200⟩
        (run 0 [Op.create 1 100 2 1000 10 none,
          Op.fulfill 3 105 1 (Except.ok ())]) 1).1 = .error ERR_NOT_PENDING ∧
     (expirePaymentTag ⟨4, 200⟩
        (run 0 [Op.create 1 100 2 1000 10 none,
          Op.fulfill 3 105 1 (Except.ok ())]) 1).2 =
       run 0 [Op.create 1 100 2 1000 10 none,
         Op.fulfill 3 105 1 (Except.ok ())]) := by
  refine ⟨by decide,
    ((terminal_state_immutability
      (run 0 [Op.create 1 100 2 1000 10 none, Op.fulfill 3 105 1 (Except.ok ())]) 1
      { creator := 1, recipient := 2, amount := 1000, createdAt := 100,
        expiresAt := 110, memo := none, state := "paid",
        paymentTx := none, paymentBlock := some 105 }
      (by decide) (Or.inl (by decide)) (by decide) (by decide))
      ⟨4, 200⟩ (fun _ _ _ => .ok ())).2.2⟩

/-- C5 counterexample: while paused (a reachable paused state), a fulfill
of an unknown id fails with the not-found error, not the pause
(authorization) error, because the registry lookup precedes the pause
check; and the read `is-contract-paused` is affected by the flag. -/
theorem pause_gating_cex :
    ((run 0 [Op.toggle 0]).contractPaused = true) ∧
    ((fulfillPaymentTag (fun _ _ _ => .ok ()) ⟨1, 0⟩ (run 0 [Op.toggle 0]) 7).result =
      .error ERR_NOT_FOUND) ∧
    ERR_NOT_FOUND ≠ ERR_UNAUTHORIZED ∧
    isContractPaused { initState with contractPaused := true } ≠
      isContractPaused { initState with contractPaused := false } := by
  decide

/-- C5 amended: while paused, every create fails with the authorization
(pause) error and every fulfill fails — with the pause error when the tag
exists and with the not-found error otherwise — and in both cases the state
is unchanged and no transfer is invoked; cancel and expire are completely
insensitive to the flag (same response, same state up to the flag itself),
and so is every read-only function except those that report the flag. -/
theorem pause_gating (ctx : Ctx) (s : ContractState) :
    (s.contractPaused = true →
      (∀ r a e m, createPaymentTag ctx s r a e m = (.error ERR_UNAUTHORIZED, s)) ∧
      (∀ (transfer : Transfer) id tag, s.paymentTags id = some tag →
        fulfillPaymentTag transfer ctx s id =
          { result := .error ERR_UNAUTHORIZED, state := s, calls := [] }) ∧
      (∀ (transfer : Transfer) id, s.paymentTags id = none →
        fulfillPaymentTag transfer ctx s id =
          { result := .error ERR_NOT_FOUND, state := s, calls := [] })) ∧
    (∀ b id, cancelPaymentTag ctx { s with contractPaused := b } id =
      ((cancelPaymentTag ctx s id).1,
        { (cancelPaymentTag ctx s id).2 with contractPaused := b })) ∧
    (∀ b id, expirePaymentTag ctx { s with contractPaused := b } id =
      ((expirePaymentTag ctx s id).1,
        { (expirePaymentTag ctx s id).2 with contractPaused := b })) ∧
    (∀ b id, getPaymentTag { s with contractPaused := b } id = getPaymentTag s id) ∧
    (∀ b p, getCreatorTags { s with contractPaused := b } p = getCreatorTags s p) ∧
    (∀ b p, getRecipientTags { s with contractPaused := b } p = getRecipientTags s p) ∧
    (∀ b id, canExpireTag ctx { s with contractPaused := b } id = canExpireTag ctx s id) ∧
    (∀ b k, getContractStats { s with contractPaused := b } k = getContractStats s k) ∧
    (∀ b ids, getMultipleTags { s with contractPaused := b } ids = getMultipleTags s ids) ∧
    (∀ b, getTagCounter { s with contractPaused := b } = getTagCounter s) := by
  refine ⟨?_, ?_, ?_, fun b id => rfl, fun b p => rfl, fun b p => rfl,
    fun b id => rfl, fun b k => rfl, fun b ids => rfl, fun b => rfl⟩
  · intro hp
    refine ⟨?_, ?_, ?_⟩
    · intro r a e m
      simp only [createPaymentTag, if_pos hp]
    · intro transfer id tag hfind
      simp only [fulfillPaymentTag, hfind, if_pos hp]
    · intro transfer id hnone
      simp only [fulfillPaymentTag, hnone]
  · intro b id
    dsimp only [cancelPaymentTag]
    cases hfind : s.paymentTags id with
    | none => rfl
    | some tag =>
      repeat' split
      all_goals rfl
  · intro b id
    dsimp only [expirePaymentTag]
    cases hfind : s.paymentTags id with
    | none => rfl
    | some tag =>
      repeat' split
      all_goals rfl

/-- Witness for the amended C5 at a concrete reachable paused state. -/
theorem pause_gating_witness :
    ((run 0 [Op.toggle 0]).contractPaused = true) ∧
    (createPaymentTag ⟨1, 0⟩ (run 0 [Op.toggle 0]) 2 1000 10 none =
      (.error ERR_UNAUTHORIZED, run 0 [Op.toggle 0])) := by
  refine ⟨by decide,
    ((pause_gating ⟨1, 0⟩ (run 0 [Op.toggle 0])).1 (by decide)).1 2 1000 10 none⟩

/-- C6 counterexample: two distinct validation predicates of `create` — the
amount floor (violated by amount 500 with a valid duration) and the
duration-positivity check (violated by duration 0 with a valid amount) —
both produce the same error value `u106`, so the returned error value does
not uniquely identify the failing predicate. -/
theorem error_taxonomy_cex :
    ((createPaymentTag ⟨1, 100⟩ initState 2 500 10 none).1 =
      .error ERR_INVALID_AMOUNT) ∧
    (500 < MIN_PAYMENT_AMOUNT) ∧ (0 < 10) ∧ (10 ≤ MAX_EXPIRATION_BLOCKS) ∧
    ((createPaymentTag ⟨1, 100⟩ initState 2 1000 0 none).1 =
      .error ERR_INVALID_AMOUNT) ∧
    (¬ 1000 < MIN_PAYMENT_AMOUNT) := by
  decide

/-- C6 amended: the error mapping is not one-to-one: `u106` is shared by the
amount floor and the zero-duration check, `u104` by the pause gate,
cancel's creator check and the admin check of the pause toggle, and the
single code `u105` serves both fulfill's "expired" and expire's "not yet
expired" conditions, each shown at a concrete input. -/
theorem error_code_sharing :
    ((createPaymentTag ⟨1, 100⟩ initState 2 500 10 none).1 =
      .error ERR_INVALID_AMOUNT) ∧
    ((createPaymentTag ⟨1, 100⟩ initState 2 1000 0 none).1 =
      .error ERR_INVALID_AMOUNT) ∧
    ((createPaymentTag ⟨1, 100⟩ (run 0 [Op.toggle 0]) 2 1000 10 none).1 =
      .error ERR_UNAUTHORIZED) ∧
    ((cancelPaymentTag ⟨9, 100⟩ (run 0 [Op.create 1 100 2 1000 10 none]) 1).1 =
      .error ERR_UNAUTHORIZED) ∧
    ((toggleContractPause 0 ⟨5, 0⟩ initState).1 = .error ERR_UNAUTHORIZED) ∧
    ((fulfillPaymentTag (fun _ _ _ => .ok ()) ⟨3, 110⟩
        (run 0 [Op.create 1 100 2 1000 10 none]) 1).result = .error ERR_EXPIRED) ∧
    ((expirePaymentTag ⟨3, 105⟩ (run 0 [Op.create 1 100 2 1000 10 none]) 1).1 =
      .error ERR_EXPIRED) := by
  decide

/-- C7 counterexample: a zero duration is outside `(0, max]`, yet `create`
returns the invalid-amount error `u106`, not the duration error `u108`. -/
theorem create_zero_duration_cex :
    ((createPaymentTag ⟨1, 100⟩ initState 2 1000 0 none).1 =
      .error ERR_INVALID_AMOUNT) ∧
    ((createPaymentTag ⟨1, 100⟩ initState 2 1000 0 none).1 ≠
      .error ERR_MAX_EXPIRATION_EXCEEDED) ∧
    ERR_INVALID_AMOUNT ≠ ERR_MAX_EXPIRATION_EXCEEDED := by
  decide

/-- C7 amended: `create` checks, in order: pause, amount floor, duration
upper bound, duration positivity, self-payment, memo; the first failing
check determines the error — a duration above the maximum yields the
duration-exceeded error while a zero duration yields the invalid-amount
error — and every failing create leaves the state untouched. -/
theorem create_validation_order (ctx : Ctx) (s : ContractState) (r a e : Nat)
    (m : Option String) :
    (s.contractPaused = true →
      createPaymentTag ctx s r a e m = (.error ERR_UNAUTHORIZED, s)) ∧
    (s.contractPaused = false → a < MIN_PAYMENT_AMOUNT →
      createPaymentTag ctx s r a e m = (.error ERR_INVALID_AMOUNT, s)) ∧
    (s.contractPaused = false → ¬ a < MIN_PAYMENT_AMOUNT →
      MAX_EXPIRATION_BLOCKS < e →
      createPaymentTag ctx s r a e m = (.error ERR_MAX_EXPIRATION_EXCEEDED, s)) ∧
    (s.contractPaused = false → ¬ a < MIN_PAYMENT_AMOUNT →
      ¬ MAX_EXPIRATION_BLOCKS < e → e = 0 →
      createPaymentTag ctx s r a e m = (.error ERR_INVALID_AMOUNT, s)) ∧
    (s.contractPaused = false → ¬ a < MIN_PAYMENT_AMOUNT →
      ¬ MAX_EXPIRATION_BLOCKS < e → ¬ e = 0 → ctx.txSender = r →
      createPaymentTag ctx s r a e m = (.error ERR_SELF_PAYMENT, s)) ∧
    (s.contractPaused = false → ¬ a < MIN_PAYMENT_AMOUNT →
      ¬ MAX_EXPIRATION_BLOCKS < e → ¬ e = 0 → ¬ ctx.txSender = r →
      memoEmpty m = true →
      createPaymentTag ctx s r a e m = (.error ERR_EMPTY_MEMO, s)) ∧
    (s.contractPaused = false → ¬ a < MIN_PAYMENT_AMOUNT →
      ¬ MAX_EXPIRATION_BLOCKS < e → ¬ e = 0 → ¬ ctx.txSender = r →
      memoEmpty m = false →
      (createPaymentTag ctx s r a e m).1 = .ok (s.tagCounter + 1)) := by
  refine ⟨?_, ?_, ?_, ?_, ?_, ?_, ?_⟩
  · intro h1
    simp only [createPaymentTag, if_pos h1]
  · intro h1 h2
    have hp : ¬ s.contractPaused = true := by simp [h1]
    simp only [createPaymentTag, if_neg hp, if_pos h2]
  · intro h1 h2 h3
    have hp : ¬ s.contractPaused = true := by simp [h1]
    simp only [createPaymentTag, if_neg hp, if_neg h2, if_pos h3]
  · intro h1 h2 h3 h4
    have hp : ¬ s.contractPaused = true := by simp [h1]
    simp only [createPaymentTag, if_neg hp, if_neg h2, if_neg h3, if_pos h4]
  · intro h1 h2 h3 h4 h5
    have hp : ¬ s.contractPaused = true := by simp [h1]
    simp only [createPaymentTag, if_neg hp, if_neg h2, if_neg h3, if_neg h4,
      if_pos h5]
  · intro h1 h2 h3 h4 h5 h6
    have hp : ¬ s.contractPaused = true := by simp [h1]
    simp only [createPaymentTag, if_neg hp, if_neg h2, if_neg h3, if_neg h4,
      if_neg h5, if_pos h6]
  · intro h1 h2 h3 h4 h5 h6
    have hp : ¬ s.contractPaused = true := by simp [h1]
    have hm : ¬ memoEmpty m = true := by simp [h6]
    simp only [createPaymentTag, if_neg hp, if_neg h2, if_neg h3, if_neg h4,
      if_neg h5, if_neg hm]

/-- Witness for the amended C7: the zero-duration branch at a concrete
input. -/
theorem create_validation_order_witness :
    initState.contractPaused = false ∧ (¬ 1000 < MIN_PAYMENT_AMOUNT) ∧
    (¬ MAX_EXPIRATION_BLOCKS < 0) ∧
    createPaymentTag ⟨1, 100⟩ initState 2 1000 0 none =
      (.error ERR_INVALID_AMOUNT, initState) := by
  refine ⟨by decide, by decide, by decide,
    (create_validation_order ⟨1, 100⟩ initState 2 1000 0 none).2.2.2.1
      (by decide) (by decide) (by decide) rfl⟩

/-- A step never changes the multiplicity of an already-assigned id in any
creator-index list (only the fresh id `counter + 1` can be appended). -/
theorem step_count_creatorList (d : Principal) (s : ContractState) (op : Op)
    (p : Principal) (j : Nat) (hj : j ≤ s.tagCounter) :
    List.count j (creatorList (step d s op) p) = List.count j (creatorList s p) := by
  rcases step_creatorList_cases d s op p with heq | ⟨hc, heq⟩
  · rw [heq]
  · rw [heq, List.count_append]
    have hne : j ≠ s.tagCounter + 1 := by omega
    simp [List.count_cons, hne]

/-- A step never changes the multiplicity of an already-assigned id in any
recipient-index list. -/
theorem step_count_recipientList (d : Principal) (s : ContractState) (op : Op)
    (p : Principal) (j : Nat) (hj : j ≤ s.tagCounter) :
    List.count j (recipientList (step d s op) p) = List.count j (recipientList s p) := by
  rcases step_recipientList_cases d s op p with heq | ⟨hc, heq⟩
  · rw [heq]
  · rw [heq, List.count_append]
    have hne : j ≠ s.tagCounter + 1 := by omega
    simp [List.count_cons, hne]

theorem runFrom_count_creatorList (d : Principal) (s : ContractState)
    (ops : List Op) (p : Principal) (j : Nat) (hj : j ≤ s.tagCounter) :
    List.count j (creatorList (runFrom d s ops) p) = List.count j (creatorList s p) := by
  induction ops generalizing s with
  | nil => rfl
  | cons op rest ih =>
    rw [runFrom_cons, ih (step d s op) (Nat.le_trans hj (step_tagCounter_mono d s op)),
      step_count_creatorList d s op p j hj]

theorem runFrom_count_recipientList (d : Principal) (s : ContractState)
    (ops : List Op) (p : Principal) (j : Nat) (hj : j ≤ s.tagCounter) :
    List.count j (recipientList (runFrom d s ops) p) = List.count j (recipientList s p) := by
  induction ops generalizing s with
  | nil => rfl
  | cons op rest ih =>
    rw [runFrom_cons, ih (step d s op) (Nat.le_trans hj (step_tagCounter_mono d s op)),
      step_count_recipientList d s op p j hj]

set_option maxRecDepth 100000 in
/-- C1 counterexample: at the reachable state produced by 100 successful
creates from party 1 to party 2, both index entries hold the maximum of 100
ids, yet the 101st create does not fail (no index-full error exists in the
code: the boolean returned by the index helpers is ignored) — it succeeds
with id 101, and id 101 appears in neither the creator's nor the
recipient's index afterwards. -/
theorem index_full_create_cex :
    ((creatorList (run 0 (List.replicate 100 (Op.create 1 0 2 1000 10 none))) 1).length
      = MAX_TAGS_PER_USER) ∧
    ((recipientList (run 0 (List.replicate 100 (Op.create 1 0 2 1000 10 none))) 2).length
      = MAX_TAGS_PER_USER) ∧
    ((createPaymentTag ⟨1, 0⟩
        (run 0 (List.replicate 100 (Op.create 1 0 2 1000 10 none))) 2 1000 10 none).1
      = .ok 101) ∧
    (101 ∉ creatorList (createPaymentTag ⟨1, 0⟩
        (run 0 (List.replicate 100 (Op.create 1 0 2 1000 10 none))) 2 1000 10 none).2 1) ∧
    (101 ∉ recipientList (createPaymentTag ⟨1, 0⟩
        (run 0 (List.replicate 100 (Op.create 1 0 2 1000 10 none))) 2 1000 10 none).2 2) := by
  decide

/-- C1 amended: a create never fails because of index capacity (its
response is insensitive to the contents of both index maps: the append's
boolean result is silently discarded); when the relevant index entry holds
fewer than the maximum 100 ids at a reachable state, the new id of a
successful create appears exactly once in that index immediately after and
at every later reachable state. -/
theorem index_completeness_amended (d : Principal) (ops : List Op) (ctx : Ctx)
    (r a e : Nat) (m : Option String) (j : Nat)
    (hok : (createPaymentTag ctx (run d ops) r a e m).1 = .ok j) :
    (∀ ci ri, (createPaymentTag ctx
        { run d ops with creatorIndex := ci, recipientIndex := ri } r a e m).1
      = .ok j) ∧
    ((creatorList (run d ops) ctx.txSender).length < MAX_TAGS_PER_USER →
      List.count j
        (creatorList (createPaymentTag ctx (run d ops) r a e m).2 ctx.txSender) = 1 ∧
      (∀ ops2, List.count j (creatorList
        (runFrom d (createPaymentTag ctx (run d ops) r a e m).2 ops2) ctx.txSender) = 1)) ∧
    ((recipientList (run d ops) r).length < MAX_TAGS_PER_USER →
      List.count j
        (recipientList (createPaymentTag ctx (run d ops) r a e m).2 r) = 1 ∧
      (∀ ops2, List.count j (recipientList
        (runFrom d (createPaymentTag ctx (run d ops) r a e m).2 ops2) r) = 1)) := by
  rcases createPaymentTag_ok_cases ctx (run d ops) r a e m with ⟨⟨err, herr⟩, _⟩ |
    ⟨hok2, s1, tagNew, hci, hri, hcnt, _, _, _, _, _, _, _, _, _, hpt, hst⟩
  · rw [herr] at hok
    cases hok
  · have hj : j = (run d ops).tagCounter + 1 := by
      rw [hok] at hok2
      injection hok2 with hok2
    subst hj
    have hcounter2 : (createPaymentTag ctx (run d ops) r a e m).2.tagCounter =
        (run d ops).tagCounter + 1 := by
      rw [hst, incrementStat_tagCounter, addToRecipientIndex_tagCounter,
        addToCreatorIndex_tagCounter, hcnt]
    refine ⟨?_, ?_, ?_⟩
    · intro ci ri
      rw [← hok]
      dsimp only [createPaymentTag]
      repeat' split
      all_goals rfl
    · intro hroom
      have hs1list : ∀ q, creatorList s1 q = creatorList (run d ops) q := by
        intro q
        simp only [creatorList, hci]
      have hroom1 : (creatorList s1 ctx.txSender).length < MAX_TAGS_PER_USER := by
        rw [hs1list]
        exact hroom
      have hlist : creatorList (createPaymentTag ctx (run d ops) r a e m).2 ctx.txSender =
          creatorList (run d ops) ctx.txSender ++ [(run d ops).tagCounter + 1] := by
        rw [hst, creatorList_incrementStat, creatorList_addToRecipientIndex,
          addToCreatorIndex_list_of_room ctx.txSender ((run d ops).tagCounter + 1) s1
            hroom1 ctx.txSender, if_pos rfl, hs1list]
      have hnot : ((run d ops).tagCounter + 1) ∉ creatorList (run d ops) ctx.txSender := by
        intro hmem
        have := ((run_IdxBounded d ops) ctx.txSender).1 _ hmem
        omega
      have hcount : List.count ((run d ops).tagCounter + 1)
          (creatorList (createPaymentTag ctx (run d ops) r a e m).2 ctx.txSender) = 1 := by
        rw [hlist, List.count_append, List.count_eq_zero.2 hnot]
        simp
      refine ⟨hcount, ?_⟩
      intro ops2
      rw [runFrom_count_creatorList d _ ops2 ctx.txSender _ (by rw [hcounter2])]
      exact hcount
    · intro hroom
      have hmidlist : ∀ q,
          recipientList ((addToCreatorIndex ctx.txSender ((run d ops).tagCounter + 1) s1).2) q =
          recipientList (run d ops) q := by
        intro q
        rw [recipientList_addToCreatorIndex]
        simp only [recipientList, hri]
      have hroom1 : (recipientList
          ((addToCreatorIndex ctx.txSender ((run d ops).tagCounter + 1) s1).2) r).length
          < MAX_TAGS_PER_USER := by
        rw [hmidlist]
        exact hroom
      have hlist : recipientList (createPaymentTag ctx (run d ops) r a e m).2 r =
          recipientList (run d ops) r ++ [(run d ops).tagCounter + 1] := by
        rw [hst, recipientList_incrementStat,
          addToRecipientIndex_list_of_room r ((run d ops).tagCounter + 1) _ hroom1 r,
          if_pos rfl, hmidlist]
      have hnot : ((run d ops).tagCounter + 1) ∉ recipientList (run d ops) r := by
        intro hmem
        have := ((run_IdxBounded d ops) r).2 _ hmem
        omega
      have hcount : List.count ((run d ops).tagCounter + 1)
          (recipientList (createPaymentTag ctx (run d ops) r a e m).2 r) = 1 := by
        rw [hlist, List.count_append, List.count_eq_zero.2 hnot]
        simp
      refine ⟨hcount, ?_⟩
      intro ops2
      rw [runFrom_count_recipientList d _ ops2 r _ (by rw [hcounter2])]
      exact hcount

/-- Witness for the amended C1: the first create from the empty state. -/
theorem index_completeness_amended_witness :
    ((createPaymentTag ⟨1, 100⟩ (run 0 []) 2 1000 10 none).1 = .ok 1) ∧
    ((creatorList (run 0 []) 1).length < MAX_TAGS_PER_USER) ∧
    (List.count 1
      (creatorList (createPaymentTag ⟨1, 100⟩ (run 0 []) 2 1000 10 none).2 1) = 1) := by
  refine ⟨by decide, by decide,
    ((index_completeness_amended 0 [] ⟨1, 100⟩ 2 1000 10 none 1 (by decide)).2.1
      (by decide)).1⟩

end Bitflow
